import Mathlib

/-!
Shallow embedding of the media rendering/transcoding pipeline of the
kulturverein-lochmuehle/posting repository, together with theorems settling
the frozen claims about it.

Embedded sources:
* `src/utils/render.utils.ts` — `calcDimensions`, `renderImage`,
  `renderVideo`, `renderFile`;
* `src/utils/filter.utils.ts` — `FILTERS`, `parseFilter`, `applyFilters`;
* `src/utils/preview.utils.ts` — `previewFile`;
* `src/utils/file.utils.ts` — `saveFileContents` (modeled as the `saved`
  field of the render outcome) and the `MediaSize` pair.

JavaScript numbers are embedded as rationals (`ℚ`); every definition is
translated from the TypeScript source, statement by statement.  Spec-side
definitions (used to compare the code against the specification's words)
are clearly marked as such in their doc comments.
-/

namespace Posting

/-- A drawing surface; embeds the `width`/`height` of an
`HTMLCanvasElement | OffscreenCanvas` (the only properties the embedded
code reads). -/
structure Canvas where
  width : ℚ
  height : ℚ
deriving DecidableEq

/-- The `Dimensions` tuple of `render.utils.ts` (lines 22-31): source
offset/extent and destination offset/extent for a `drawImage` call. -/
structure Dimensions where
  sx : ℚ
  sy : ℚ
  sWidth : ℚ
  sHeight : ℚ
  dx : ℚ
  dy : ℚ
  dWidth : ℚ
  dHeight : ℚ
deriving DecidableEq

/-- The error taxonomy the specification assigns to the geometry engine.
The source itself never constructs such an error (see `calcDimensions`). -/
inductive RenderError
  | invalidDimension
deriving DecidableEq

/-- Equality of embedded fallible results is decidable. -/
instance {ε α : Type} [DecidableEq ε] [DecidableEq α] : DecidableEq (Except ε α) :=
  fun a b =>
    match a, b with
    | Except.ok x, Except.ok y =>
      if h : x = y then isTrue (by rw [h]) else isFalse fun he => h (Except.ok.inj he)
    | Except.error x, Except.error y =>
      if h : x = y then isTrue (by rw [h]) else isFalse fun he => h (Except.error.inj he)
    | Except.ok _, Except.error _ => isFalse fun he => Except.noConfusion he
    | Except.error _, Except.ok _ => isFalse fun he => Except.noConfusion he

/-- Embeds `calcDimensions` (`render.utils.ts` lines 40-62).  The function
body is three ratio computations, two centering offsets and a tuple
literal; it contains no validation and no `throw`, so the `Except` error
channel (named after the specification's alleged `InvalidDimension`
failure) is never used: every call returns `Except.ok`.  Rational division
by zero yields `0` in Lean where JavaScript would yield a non-finite
number; no theorem below evaluates the payload of a division by zero. -/
def calcDimensions (frameWidth frameHeight : ℚ) (canvas : Canvas) :
    Except RenderError Dimensions :=
  let hRatio := canvas.width / frameWidth
  let vRatio := canvas.height / frameHeight
  let ratio := max hRatio vRatio
  let centerShiftX := (canvas.width - frameWidth * ratio) / 2
  let centerShiftY := (canvas.height - frameHeight * ratio) / 2
  Except.ok
    { sx := 0
      sy := 0
      sWidth := frameWidth
      sHeight := frameHeight
      dx := centerShiftX
      dy := centerShiftY
      dWidth := frameWidth * ratio
      dHeight := frameHeight * ratio }

/-- The closed filter catalog: `keyof typeof FILTERS`
(`filter.utils.ts` line 72). -/
inductive FilterName
  | blur
  | brightness
  | contrast
  | grayscale
  | hueRotate
  | invert
  | opacity
  | saturate
  | sepia
deriving DecidableEq

/-- The CSS key of a filter, as it appears in the `FILTERS` object
(`hueRotate` is keyed `"hue-rotate"`). -/
def FilterName.key : FilterName → String
  | FilterName.blur => "blur"
  | FilterName.brightness => "brightness"
  | FilterName.contrast => "contrast"
  | FilterName.grayscale => "grayscale"
  | FilterName.hueRotate => "hue-rotate"
  | FilterName.invert => "invert"
  | FilterName.opacity => "opacity"
  | FilterName.saturate => "saturate"
  | FilterName.sepia => "sepia"

/-- One entry of the filter catalog: default value, slider domain and
unit (`filter.utils.ts` lines 4-20). -/
structure FilterDef where
  value : ℚ
  min : ℚ
  max : ℚ
  step : ℚ
  unit : String
deriving DecidableEq

/-- Embeds the `FILTERS` catalog object (`filter.utils.ts` lines 57-67). -/
def FILTERS : FilterName → FilterDef
  | FilterName.blur => { value := 20, min := 0, max := 200, step := 1, unit := "px" }
  | FilterName.brightness => { value := 40, min := 0, max := 300, step := 1, unit := "%" }
  | FilterName.contrast => { value := 200, min := 0, max := 600, step := 1, unit := "%" }
  | FilterName.grayscale => { value := 50, min := 0, max := 100, step := 1, unit := "%" }
  | FilterName.hueRotate => { value := 90, min := 0, max := 360, step := 1, unit := "deg" }
  | FilterName.invert => { value := 75, min := 0, max := 100, step := 1, unit := "%" }
  | FilterName.opacity => { value := 25, min := 0, max := 100, step := 1, unit := "%" }
  | FilterName.saturate => { value := 30, min := 0, max := 100, step := 1, unit := "%" }
  | FilterName.sepia => { value := 60, min := 0, max := 100, step := 1, unit := "%" }

/-- The textual order in which the keys of the `FILTERS` object literal
are written (its catalog order). -/
def FILTER_CATALOG : List FilterName :=
  [FilterName.blur, FilterName.brightness, FilterName.contrast,
   FilterName.grayscale, FilterName.hueRotate, FilterName.invert,
   FilterName.opacity, FilterName.saturate, FilterName.sepia]

/-- Embeds `parseFilter` (`filter.utils.ts` lines 28-30): the template
string `name(value+unit)`.  Integral rationals print exactly like the
corresponding JavaScript numbers. -/
def parseFilter (name : FilterName) (value : ℚ) : String :=
  name.key ++ "(" ++ toString value ++ (FILTERS name).unit ++ ")"

/-- The composite string assigned to `ctx.filter`
(`filter.utils.ts` line 49): `parsed.length > 0 ? parsed.join(' ') : 'none'`. -/
def joinFilters (parsed : List String) : String :=
  if 0 < parsed.length then String.intercalate " " parsed else "none"

/-- An `ApplicableFilters` value as the code iterates it:
`Object.entries(filters)` yields the (non-integer-like, hence
insertion-ordered) key/value pairs of the input map, keys unique. -/
abbrev FilterEntries := List (FilterName × ℚ)

/-- Embeds `applyFilters` (`filter.utils.ts` lines 38-50), returning the
composite filter string it assigns to the target context.  The `!ctx`
early return depends only on the runtime environment (a 2d context is
assumed available) and does not change the computed string. -/
def applyFilters (filters : FilterEntries) : String :=
  joinFilters (filters.map fun p => parseFilter p.1 p.2)

/-- Looks a filter name up in an entry list (first match), the way a
JavaScript map access is keyed. -/
def lookupFilter (n : FilterName) : FilterEntries → Option ℚ
  | [] => none
  | p :: rest => if p.1 = n then some p.2 else lookupFilter n rest

/-- Spec-side compile, following the specification's words: terms are
produced "in filter-catalog order (NOT insertion order of the input
map)".  Declared only to be compared with the source-derived
`applyFilters`. -/
def compileCatalogOrder (filters : FilterEntries) : String :=
  joinFilters
    (FILTER_CATALOG.filterMap fun n => (lookupFilter n filters).map (parseFilter n))

/-- A decoded still image (`ImageBitmap | HTMLImageElement`): the embedded
code reads only its `width` and `height`. -/
structure ImageData where
  width : ℚ
  height : ℚ
deriving DecidableEq

/-- The observable outcome of `renderImage`: the composite filter string
set on the context and the `Dimensions` passed to `drawImage`; it stands
for the encoded canvas contents behind the returned object/data URL. -/
structure RenderedImage where
  filter : String
  dims : Except RenderError Dimensions
deriving DecidableEq

/-- Embeds `renderImage` (`render.utils.ts` lines 71-93): return
immediately when the token is already aborted, otherwise apply the
filters, compute the geometry, clear, draw, and yield an encoded image
URL.  The `ctx === null` early return depends only on the runtime
environment and is not modeled; `aborted` is the state of
`abortCtrl.signal.aborted` at entry. -/
def renderImage (image : ImageData) (canvas : Canvas)
    (filters : FilterEntries) (aborted : Bool) : Option RenderedImage :=
  if aborted then none
  else
    some
      { filter := applyFilters filters
        dims := calcDimensions image.width image.height canvas }

/-- A decoded video sample as delivered by `VideoSampleSink.samples()`:
the embedded code reads its `timestamp` and `duration`. -/
structure Sample where
  timestamp : ℚ
  duration : ℚ
deriving DecidableEq

/-- The primary video track's metadata read by `renderVideo`. -/
structure VideoTrack where
  displayWidth : ℚ
  displayHeight : ℚ
deriving DecidableEq

/-- The demuxed view of a video file: computed duration, optional primary
video track, and the ordered decoded sample stream. -/
structure InputVideo where
  duration : ℚ
  track : Option VideoTrack
  samples : List Sample
deriving DecidableEq

/-- One observable step of the transcode loop of `renderVideo`
(`render.utils.ts` lines 151-174), in program order:
`check i b` is the abort-token read at the top of iteration `i` (the
iteration whose sample has already been pulled from the stream),
`draw i` is `sample.draw`, `encode i ts dur` is the completed
`await canvasSource.add(ts, dur)`, `progress v` is an `onUpdate(v)` call,
`close i` is `sample.close()`; `sourceClose` and `finalize` are the
post-loop `canvasSource.close()` and `await output.finalize()`. -/
inductive RenderEvent
  | check (i : ℕ) (aborted : Bool)
  | draw (i : ℕ)
  | encode (i : ℕ) (timestamp duration : ℚ)
  | progress (value : ℚ)
  | close (i : ℕ)
  | sourceClose
  | finalize
deriving DecidableEq

/-- How `renderVideo`'s promise settles: `rejected` is
`return Promise.reject()`, `noOutput` is `return` with value `undefined`,
`output frames` is the finalized `BufferTarget` buffer, represented by the
(timestamp, duration) list of the frames encoded into it. -/
inductive RenderResult
  | rejected
  | noOutput
  | output (frames : List (ℚ × ℚ))
deriving DecidableEq

/-- The byte buffer a caller receives from a settled `renderVideo`
promise: only a fulfilled `output` carries one. -/
def RenderResult.bytes : RenderResult → Option (List (ℚ × ℚ))
  | RenderResult.output frames => some frames
  | _ => none

/-- Embeds the `for await (const sample of sink.samples())` loop
(`render.utils.ts` lines 151-167).  `tok i` is the value of
`abortCtrl.signal.aborted` observed at the check of iteration `i` (the
token is owned by an external caller and may flip at any suspension
point).  Returns the emitted event trace and whether the loop ran to
completion (`false` means it exited via `return Promise.reject()`). -/
def transcodeLoop (tok : ℕ → Bool) (duration : ℚ) :
    List Sample → ℕ → List RenderEvent × Bool
  | [], _ => ([], true)
  | s :: rest, i =>
    if tok i then
      ([RenderEvent.check i true], false)
    else
      let next := transcodeLoop tok duration rest (i + 1)
      (RenderEvent.check i false :: RenderEvent.draw i ::
         RenderEvent.encode i s.timestamp s.duration ::
         RenderEvent.progress (s.timestamp / duration) ::
         RenderEvent.close i :: next.1,
       next.2)

/-- Extracts the value of a progress event. -/
def progressOf : RenderEvent → Option ℚ
  | RenderEvent.progress v => some v
  | _ => none

/-- The sequence of values passed to the `onUpdate` progress callback,
read off an event trace. -/
def progressValues (trace : List RenderEvent) : List ℚ :=
  trace.filterMap progressOf

/-- `MediaSize` (`options.component.ts` line 100): the ordered pair
`[height, width]`. -/
abbrev MediaSize := ℕ × ℕ

/-- The observable outcome of a `renderVideo` call: the intermediate
`OffscreenCanvas` (if one was created), the filter string applied to it,
the precomputed geometry, the loop's event trace, and how the promise
settled. -/
structure RenderVideoOutcome where
  canvas : Option Canvas
  filter : Option String
  dims : Option (Except RenderError Dimensions)
  trace : List RenderEvent
  result : RenderResult

/-- Embeds `renderVideo` (`render.utils.ts` lines 108-179): compute the
duration, resolve the primary video track (returning `undefined` when
there is none), create `new OffscreenCanvas(size[1], size[0])`, apply the
filters once, precompute the geometry once from the track's display size,
run the sample loop, and on completion close the canvas source, finalize,
report progress `1` and return the buffer.  The `renderCtx === null` and
`output.target.buffer === null` environment checks always succeed in this
model (an `OffscreenCanvas` yields a 2d context and a finalized
`BufferTarget` holds a buffer). -/
def renderVideo (input : InputVideo) (size : MediaSize)
    (filters : FilterEntries) (tok : ℕ → Bool) : RenderVideoOutcome :=
  match input.track with
  | none =>
    { canvas := none, filter := none, dims := none, trace := [],
      result := RenderResult.noOutput }
  | some track =>
    let renderCanvas : Canvas := { width := (size.2 : ℚ), height := (size.1 : ℚ) }
    let filterString := applyFilters filters
    let dimensions := calcDimensions track.displayWidth track.displayHeight renderCanvas
    let loop := transcodeLoop tok input.duration input.samples 0
    if loop.2 then
      { canvas := some renderCanvas
        filter := some filterString
        dims := some dimensions
        trace := loop.1 ++
          [RenderEvent.sourceClose, RenderEvent.finalize, RenderEvent.progress 1]
        result := RenderResult.output (input.samples.map fun s => (s.timestamp, s.duration)) }
    else
      { canvas := some renderCanvas
        filter := some filterString
        dims := some dimensions
        trace := loop.1
        result := RenderResult.rejected }

/-- A dropped file as the dispatch functions see it: its `name`, its
declared media `type`, and the decoder views of its bytes (`image` for
`createImageBitmap`, `video` for the demuxer). -/
structure MediaFile where
  name : String
  type : String
  image : ImageData
  video : InputVideo

/-- Embeds `file.name.replace(/\.[^/.]+$/, repl)`: when the name ends in a
dot followed by one or more characters none of which is a dot or a slash,
that final extension (dot included) is replaced by `repl`; otherwise the
name is returned unchanged. -/
def replaceExtension (name repl : String) : String :=
  let rev := name.toList.reverse
  let ext := rev.takeWhile fun c => c ≠ '.' && c ≠ '/'
  match rev.drop ext.length with
  | '.' :: rest =>
    if ext.isEmpty then name else String.mk (rest.reverse ++ repl.toList)
  | _ => name

/-- The content behind the object/data URL that `renderFile` hands to
`saveFileContents`: an encoded still image, or a `Blob` over
`buffer ?? ''` for the video branch (an absent buffer becomes an empty
frame list — a zero-byte blob). -/
inductive Rendered
  | image (r : RenderedImage)
  | video (frames : List (ℚ × ℚ))
deriving DecidableEq

/-- The observable outcome of a fulfilled `renderFile` call. -/
structure RenderFileOutcome where
  canvas : Option Canvas
  trace : List RenderEvent
  rendered : Option Rendered
  filename : Option String
  saved : Option (String × Rendered)
deriving DecidableEq

/-- Embeds `renderFile` (`render.utils.ts` lines 188-231).  The `switch`
on `file.type` is embedded as grouped conditionals in case order.  The
still-image branch creates `new OffscreenCanvas(size[0], size[1])`; the
fresh `AbortController` of line 195 is unaborted when `renderImage` reads
it, while the loop checks of the video branch observe `tok`.  A rejected
`await renderVideo(...)` propagates (`Except.error ()`);
`saveFileContents` is called exactly when both `rendered` and `filename`
are defined, recorded in `saved`. -/
def renderFile (file : MediaFile) (size : MediaSize)
    (filters : FilterEntries) (tok : ℕ → Bool) :
    Except Unit RenderFileOutcome :=
  let suffix := "-" ++ toString size.2 ++ "x" ++ toString size.1
  if file.type = "image/png" ∨ file.type = "image/jpeg" ∨ file.type = "image/gif" then
    let canvas : Canvas := { width := (size.1 : ℚ), height := (size.2 : ℚ) }
    let rendered := renderImage file.image canvas filters false
    let filename := replaceExtension file.name (suffix ++ ".png")
    Except.ok
      { canvas := some canvas
        trace := []
        rendered := rendered.map Rendered.image
        filename := some filename
        saved := rendered.map fun r => (filename, Rendered.image r) }
  else if file.type = "video/mp4" ∨ file.type = "video/webm" ∨ file.type = "video/quicktime" then
    let out := renderVideo file.video size filters tok
    match out.result with
    | RenderResult.rejected => Except.error ()
    | RenderResult.noOutput =>
      let filename := replaceExtension file.name (suffix ++ ".mp4")
      Except.ok
        { canvas := out.canvas
          trace := out.trace
          rendered := some (Rendered.video [])
          filename := some filename
          saved := some (filename, Rendered.video []) }
    | RenderResult.output frames =>
      let filename := replaceExtension file.name (suffix ++ ".mp4")
      Except.ok
        { canvas := out.canvas
          trace := out.trace
          rendered := some (Rendered.video frames)
          filename := some filename
          saved := some (filename, Rendered.video frames) }
  else
    Except.ok
      { canvas := none, trace := [], rendered := none, filename := none, saved := none }

/-- The state of an `AbortController`'s signal. -/
structure AbortCtrl where
  aborted : Bool
deriving DecidableEq

/-- Which preview operation `previewFile` starts under the token it
returns. -/
inductive PreviewOp
  | image
  | video
deriving DecidableEq

/-- Embeds `previewFile` (`preview.utils.ts` lines 97-123): create a fresh
`AbortController`, route by declared media type to `previewImage` /
`previewVideo` (or do nothing for unrecognized types), and return the
controller together with the operation that was started under it. -/
def previewFile (fileType : String) : AbortCtrl × Option PreviewOp :=
  ({ aborted := false },
    if fileType = "image/png" ∨ fileType = "image/jpeg" ∨ fileType = "image/gif" then
      some PreviewOp.image
    else if fileType = "video/mp4" ∨ fileType = "video/webm" ∨ fileType = "video/quicktime" then
      some PreviewOp.video
    else
      none)

/-- The supported media types (`preview.utils.ts` lines 104-115,
`render.utils.ts` lines 199-212). -/
def supportedTypes : List String :=
  ["image/png", "image/jpeg", "image/gif",
   "video/mp4", "video/webm", "video/quicktime"]

/-! Concrete inputs used by witnesses and counterexamples. -/

/-- A 16×9 primary video track. -/
def demoTrack : VideoTrack := { displayWidth := 16, displayHeight := 9 }

/-- A one-sample video. -/
def demoVideo1 : InputVideo :=
  { duration := 1, track := some demoTrack, samples := [{ timestamp := 0, duration := 1 }] }

/-- A two-sample video. -/
def demoVideo2 : InputVideo :=
  { duration := 2, track := some demoTrack,
    samples := [{ timestamp := 0, duration := 1 }, { timestamp := 1, duration := 1 }] }

/-- A PNG file over a 1920×1080 bitmap. -/
def demoImageFile : MediaFile :=
  { name := "pic.png", type := "image/png",
    image := { width := 1920, height := 1080 },
    video := { duration := 0, track := none, samples := [] } }

/-- An mp4 container that holds no video track. -/
def demoNoTrackFile : MediaFile :=
  { name := "clip.mp4", type := "video/mp4",
    image := { width := 0, height := 0 },
    video := { duration := 0, track := none, samples := [] } }

/-- A file of an unsupported declared media type. -/
def demoTextFile : MediaFile :=
  { name := "notes.txt", type := "text/plain",
    image := { width := 1, height := 1 },
    video := { duration := 0, track := none, samples := [] } }

/-! Helper lemmas. -/

/-- A name absent from the entry list looks up to `none`. -/
theorem lookupFilter_eq_none (n : FilterName) (fs : FilterEntries)
    (h : n ∉ fs.map Prod.fst) : lookupFilter n fs = none := by
  induction fs with
  | nil => rfl
  | cons p rest ih =>
    rw [List.map_cons, List.mem_cons] at h
    push_neg at h
    rw [lookupFilter, if_neg fun he => h.1 he.symm]
    exact ih h.2

/-- Collecting the catalog entries present in `fs` by catalog order gives
back `fs` itself whenever `fs` is already ordered by the (duplicate-free)
catalog. -/
theorem catalog_filterMap_eq (l : List FilterName) :
    ∀ fs : FilterEntries, l.Nodup → (fs.map Prod.fst).Sublist l →
      (l.filterMap fun n => (lookupFilter n fs).map (parseFilter n)) =
        fs.map fun p => parseFilter p.1 p.2 := by
  induction l with
  | nil =>
    intro fs _ hs
    have hfs : fs = [] := by
      have := List.sublist_nil.mp hs
      simpa using this
    subst hfs
    rfl
  | cons n l ih =>
    intro fs hnd hs
    rw [List.nodup_cons] at hnd
    cases fs with
    | nil => simp [lookupFilter, List.filterMap_eq_nil_iff]
    | cons p fs' =>
      rw [List.map_cons] at hs
      cases hs with
      | cons _ h' =>
        have hnmem : n ∉ (p :: fs').map Prod.fst := by
          intro hmem
          exact hnd.1 (h'.subset (by simpa using hmem))
        have hnone : (lookupFilter n (p :: fs')).map (parseFilter n) = none := by
          rw [lookupFilter_eq_none n _ hnmem]
          rfl
        simp only [List.filterMap_cons, hnone]
        exact ih (p :: fs') hnd.2 h'
      | cons₂ _ h' =>
        have hsome :
            (lookupFilter p.1 (p :: fs')).map (parseFilter p.1) =
              some (parseFilter p.1 p.2) := by
          simp [lookupFilter]
        have hcng :
            (l.filterMap fun m => (lookupFilter m (p :: fs')).map (parseFilter m)) =
              l.filterMap fun m => (lookupFilter m fs').map (parseFilter m) := by
          refine List.filterMap_congr fun m hm => ?_
          have hne : ¬p.1 = m := fun he => hnd.1 (he ▸ hm)
          simp only [lookupFilter, if_neg hne]
        simp only [List.filterMap_cons, hsome, List.map_cons]
        rw [hcng, ih fs' hnd.2 h']

/-- If the token is observed aborted at some reachable check, the loop
does not run to completion. -/
theorem transcodeLoop_not_completed (tok : ℕ → Bool) (d : ℚ) :
    ∀ (ss : List Sample) (i : ℕ), (∃ k, k < ss.length ∧ tok (i + k) = true) →
      (transcodeLoop tok d ss i).2 = false := by
  intro ss
  induction ss with
  | nil =>
    intro i hex
    obtain ⟨k, hk, _⟩ := hex
    exact absurd hk (Nat.not_lt_zero k)
  | cons s rest ih =>
    intro i hex
    obtain ⟨k, hk, htk⟩ := hex
    cases hti : tok i with
    | true => simp [transcodeLoop, hti]
    | false =>
      have hk0 : k ≠ 0 := by
        intro h0
        subst h0
        rw [Nat.add_zero, hti] at htk
        exact Bool.noConfusion htk
      obtain ⟨k', rfl⟩ := Nat.exists_eq_succ_of_ne_zero hk0
      have htk' : tok (i + 1 + k') = true := by
        have harith : i + 1 + k' = i + (k' + 1) := by omega
        rw [harith]
        exact htk
      simp only [transcodeLoop, hti, Bool.false_eq_true, if_false]
      exact ih (i + 1) ⟨k', by simpa using hk, htk'⟩

/-- When the token is never observed aborted, the loop completes and
reports one progress value `timestamp / duration` per sample, in sample
order. -/
theorem transcodeLoop_no_abort (tok : ℕ → Bool) (d : ℚ)
    (htok : ∀ i, tok i = false) :
    ∀ (ss : List Sample) (i : ℕ),
      (transcodeLoop tok d ss i).2 = true ∧
      progressValues (transcodeLoop tok d ss i).1 =
        ss.map fun s => s.timestamp / d := by
  intro ss
  induction ss with
  | nil => intro i; exact ⟨rfl, rfl⟩
  | cons s rest ih =>
    intro i
    constructor
    · simp [transcodeLoop, htok i, (ih (i + 1)).1]
    · simp [transcodeLoop, htok i, progressValues, progressOf,
        (ih (i + 1)).2.symm, List.filterMap_cons]

/-- Every drawn sample was preceded, in the trace, by a non-aborted token
check for the same iteration. -/
theorem transcodeLoop_check_before_draw (tok : ℕ → Bool) (d : ℚ) :
    ∀ (ss : List Sample) (i k : ℕ),
      RenderEvent.draw k ∈ (transcodeLoop tok d ss i).1 →
      ∃ l₁ l₂,
        (transcodeLoop tok d ss i).1 = l₁ ++ RenderEvent.check k false :: l₂ ∧
        RenderEvent.draw k ∈ l₂ := by
  intro ss
  induction ss with
  | nil =>
    intro i k h
    exact absurd h (List.not_mem_nil _)
  | cons s rest ih =>
    intro i k h
    cases hti : tok i with
    | true => simp [transcodeLoop, hti] at h
    | false =>
      simp only [transcodeLoop, hti, Bool.false_eq_true, if_false] at h ⊢
      simp only [List.mem_cons] at h
      by_cases hki : k = i
      · subst hki
        refine ⟨[], RenderEvent.draw k ::
          RenderEvent.encode k s.timestamp s.duration ::
          RenderEvent.progress (s.timestamp / d) :: RenderEvent.close k ::
          (transcodeLoop tok d rest (k + 1)).1, rfl, ?_⟩
        simp
      · have h' : RenderEvent.draw k ∈ (transcodeLoop tok d rest (i + 1)).1 := by
          rcases h with h | h | h | h | h | h
          · exact absurd h (by simp)
          · exact absurd h (by simp [hki])
          · exact absurd h (by simp)
          · exact absurd h (by simp)
          · exact absurd h (by simp)
          · exact h
        obtain ⟨l₁, l₂, heq, hmem⟩ := ih (i + 1) k h'
        refine ⟨RenderEvent.check i false :: RenderEvent.draw i ::
          RenderEvent.encode i s.timestamp s.duration ::
          RenderEvent.progress (s.timestamp / d) :: RenderEvent.close i :: l₁,
          l₂, ?_, hmem⟩
        simp [heq]

/-- The encoder's completed acceptance of frame `k` appears in the trace
before any drawing of sample `k + 1`. -/
theorem transcodeLoop_encode_before_draw (tok : ℕ → Bool) (d : ℚ) :
    ∀ (ss : List Sample) (i k : ℕ), i ≤ k →
      RenderEvent.draw (k + 1) ∈ (transcodeLoop tok d ss i).1 →
      ∃ ts dur l₁ l₂,
        (transcodeLoop tok d ss i).1 =
          l₁ ++ RenderEvent.encode k ts dur :: l₂ ∧
        RenderEvent.draw (k + 1) ∈ l₂ := by
  intro ss
  induction ss with
  | nil =>
    intro i k _ h
    exact absurd h (List.not_mem_nil _)
  | cons s rest ih =>
    intro i k hik h
    cases hti : tok i with
    | true => simp [transcodeLoop, hti] at h
    | false =>
      simp only [transcodeLoop, hti, Bool.false_eq_true, if_false] at h ⊢
      simp only [List.mem_cons] at h
      have h' : RenderEvent.draw (k + 1) ∈ (transcodeLoop tok d rest (i + 1)).1 := by
        rcases h with h | h | h | h | h | h
        · exact absurd h (by simp)
        · exfalso
          have hke : k + 1 = i := by simpa using h
          omega
        · exact absurd h (by simp)
        · exact absurd h (by simp)
        · exact absurd h (by simp)
        · exact h
      by_cases hki : k = i
      · subst hki
        refine ⟨s.timestamp, s.duration,
          [RenderEvent.check k false, RenderEvent.draw k],
          RenderEvent.progress (s.timestamp / d) :: RenderEvent.close k ::
            (transcodeLoop tok d rest (k + 1)).1, rfl, ?_⟩
        exact List.mem_cons_of_mem _ (List.mem_cons_of_mem _ h')
      · obtain ⟨ts, dur, l₁, l₂, heq, hmem⟩ :=
          ih (i + 1) k (by omega) h'
        refine ⟨ts, dur, RenderEvent.check i false :: RenderEvent.draw i ::
          RenderEvent.encode i s.timestamp s.duration ::
          RenderEvent.progress (s.timestamp / d) :: RenderEvent.close i :: l₁,
          l₂, ?_, hmem⟩
        simp [heq]

/-! Claim theorems. -/

/-- C1: for positive source size (sw, sh) and positive target size
(tw, th), `calcDimensions` returns exactly the geometry with source
rectangle (0, 0, sw, sh), destination extent (sw·r, sh·r) for
r = max(tw/sw, th/sh), and destination offset ((tw − sw·r)/2,
(th − sh·r)/2); consequently the destination extent preserves the source
aspect ratio and covers the target. -/
theorem calcDimensions_cover_fit (sw sh tw th : ℚ)
    (hsw : 0 < sw) (hsh : 0 < sh) (htw : 0 < tw) (hth : 0 < th) :
    calcDimensions sw sh { width := tw, height := th } = Except.ok
      { sx := 0, sy := 0, sWidth := sw, sHeight := sh,
        dx := (tw - sw * max (tw / sw) (th / sh)) / 2,
        dy := (th - sh * max (tw / sw) (th / sh)) / 2,
        dWidth := sw * max (tw / sw) (th / sh),
        dHeight := sh * max (tw / sw) (th / sh) } ∧
    sw * max (tw / sw) (th / sh) / (sh * max (tw / sw) (th / sh)) = sw / sh ∧
    tw ≤ sw * max (tw / sw) (th / sh) ∧
    th ≤ sh * max (tw / sw) (th / sh) := by
  have hr : 0 < max (tw / sw) (th / sh) :=
    lt_of_lt_of_le (div_pos htw hsw) (le_max_left _ _)
  refine ⟨rfl, ?_, ?_, ?_⟩
  · rw [mul_comm sw _, mul_comm sh _]
    exact mul_div_mul_left _ _ (ne_of_gt hr)
  · have h1 : sw * (tw / sw) = tw := by field_simp
    calc tw = sw * (tw / sw) := h1.symm
      _ ≤ sw * max (tw / sw) (th / sh) :=
          mul_le_mul_of_nonneg_left (le_max_left _ _) (le_of_lt hsw)
  · have h1 : sh * (th / sh) = th := by field_simp
    calc th = sh * (th / sh) := h1.symm
      _ ≤ sh * max (tw / sw) (th / sh) :=
          mul_le_mul_of_nonneg_left (le_max_right _ _) (le_of_lt hsh)

/-- Witness for C1: a 1920×1080 source on a 1080×1080 target, where the
scale is max(1080/1920, 1080/1080) = 1. -/
theorem calcDimensions_cover_fit_witness :
    (0 : ℚ) < 1920 ∧ (0 : ℚ) < 1080 ∧
    (calcDimensions 1920 1080 { width := 1080, height := 1080 } = Except.ok
      { sx := 0, sy := 0, sWidth := 1920, sHeight := 1080,
        dx := (1080 - 1920 * max ((1080 : ℚ) / 1920) (1080 / 1080)) / 2,
        dy := (1080 - 1080 * max ((1080 : ℚ) / 1920) (1080 / 1080)) / 2,
        dWidth := 1920 * max ((1080 : ℚ) / 1920) (1080 / 1080),
        dHeight := 1080 * max ((1080 : ℚ) / 1920) (1080 / 1080) } ∧
    1920 * max ((1080 : ℚ) / 1920) (1080 / 1080) /
        (1080 * max ((1080 : ℚ) / 1920) (1080 / 1080)) = 1920 / 1080 ∧
    (1080 : ℚ) ≤ 1920 * max ((1080 : ℚ) / 1920) (1080 / 1080) ∧
    (1080 : ℚ) ≤ 1080 * max ((1080 : ℚ) / 1920) (1080 / 1080)) :=
  ⟨by norm_num, by norm_num,
    calcDimensions_cover_fit 1920 1080 1080 1080
      (by norm_num) (by norm_num) (by norm_num) (by norm_num)⟩

/-- Counterexample to C2: the composite string follows the insertion
order of the input map, so the sets written sepia-first and blur-first
compile to different strings. -/
theorem applyFilters_insertion_order_counterexample :
    applyFilters [(FilterName.sepia, 60), (FilterName.blur, 20)] =
      "sepia(60%) blur(20px)" ∧
    applyFilters [(FilterName.blur, 20), (FilterName.sepia, 60)] =
      "blur(20px) sepia(60%)" ∧
    applyFilters [(FilterName.sepia, 60), (FilterName.blur, 20)] ≠
      applyFilters [(FilterName.blur, 20), (FilterName.sepia, 60)] := by
  refine ⟨?_, ?_, ?_⟩ <;> decide

/-- C2 (amended): `applyFilters` compiles the terms in the insertion
order of the input map, so it agrees with the specification's
catalog-order compile exactly on inputs whose entries already follow the
catalog order. -/
theorem applyFilters_catalog_order_on_sorted (fs : FilterEntries)
    (h : (fs.map Prod.fst).Sublist FILTER_CATALOG) :
    applyFilters fs = compileCatalogOrder fs := by
  unfold applyFilters compileCatalogOrder
  rw [catalog_filterMap_eq FILTER_CATALOG fs (by decide) h]

/-- Witness for the amended C2: a catalog-ordered input (blur before
sepia) compiles identically under both orders. -/
theorem applyFilters_catalog_order_on_sorted_witness :
    ([(FilterName.blur, (20 : ℚ)), (FilterName.sepia, 60)].map Prod.fst).Sublist
      FILTER_CATALOG ∧
    applyFilters [(FilterName.blur, 20), (FilterName.sepia, 60)] =
      compileCatalogOrder [(FilterName.blur, 20), (FilterName.sepia, 60)] :=
  ⟨by decide, applyFilters_catalog_order_on_sorted _ (by decide)⟩

/-- Counterexample to C3: at a negative frame width, `calcDimensions`
does not fail with an `InvalidDimension` error — it returns an ordinary
geometry tuple (with a negative destination extent). -/
theorem calcDimensions_negative_input_no_error :
    calcDimensions (-2) 1 { width := 4, height := 3 } =
      Except.ok { sx := 0, sy := 0, sWidth := -2, sHeight := 1,
                  dx := 5, dy := 0, dWidth := -6, dHeight := 3 } ∧
    calcDimensions (-2) 1 { width := 4, height := 3 } ≠
      Except.error RenderError.invalidDimension := by
  have hok : calcDimensions (-2) 1 { width := 4, height := 3 } =
      Except.ok { sx := 0, sy := 0, sWidth := -2, sHeight := 1,
                  dx := 5, dy := 0, dWidth := -6, dHeight := 3 } := by
    have hmax : max ((4 : ℚ) / (-2)) ((3 : ℚ) / 1) = (3 : ℚ) / 1 := by
      rw [max_eq_right]
      norm_num
    simp only [calcDimensions, hmax]
    norm_num
  refine ⟨hok, fun h => ?_⟩
  rw [hok] at h
  exact Except.noConfusion h

/-- C3 (amended): `calcDimensions` performs no input validation and never
fails — every call, zero or negative inputs included, returns an
`Except.ok` geometry; for all-positive inputs its two divisors are the
nonzero frame dimensions, so no division by zero occurs. -/
theorem calcDimensions_never_fails (frameWidth frameHeight : ℚ)
    (canvas : Canvas) :
    ∃ d, calcDimensions frameWidth frameHeight canvas = Except.ok d :=
  ⟨_, rfl⟩

/-- C4: the token is checked before processing each decoded sample (every
draw of sample k is preceded in the trace by the non-aborted check of
iteration k), and when the token is observed aborted at a reachable check
the operation settles rejected, surfacing no output bytes — an outcome
distinct from success-with-no-output. -/
theorem renderVideo_abort_rejects (input : InputVideo) (size : MediaSize)
    (filters : FilterEntries) (tok : ℕ → Bool) (t : VideoTrack)
    (htrack : input.track = some t)
    (habort : ∃ k, k < input.samples.length ∧ tok k = true) :
    (renderVideo input size filters tok).result = RenderResult.rejected ∧
    (renderVideo input size filters tok).result.bytes = none ∧
    RenderResult.rejected ≠ RenderResult.noOutput ∧
    ∀ k, RenderEvent.draw k ∈ (renderVideo input size filters tok).trace →
      ∃ l₁ l₂,
        (renderVideo input size filters tok).trace =
          l₁ ++ RenderEvent.check k false :: l₂ ∧
        RenderEvent.draw k ∈ l₂ := by
  have hnc : (transcodeLoop tok input.duration input.samples 0).2 = false := by
    refine transcodeLoop_not_completed tok input.duration input.samples 0 ?_
    obtain ⟨k, hk, htk⟩ := habort
    exact ⟨k, hk, by rw [Nat.zero_add]; exact htk⟩
  have hres : (renderVideo input size filters tok).result = RenderResult.rejected := by
    simp [renderVideo, htrack, hnc]
  have htr : (renderVideo input size filters tok).trace =
      (transcodeLoop tok input.duration input.samples 0).1 := by
    simp [renderVideo, htrack, hnc]
  refine ⟨hres, by rw [hres]; rfl, fun h => RenderResult.noConfusion h,
    fun k hk => ?_⟩
  rw [htr] at hk ⊢
  exact transcodeLoop_check_before_draw tok input.duration input.samples 0 k hk

/-- Witness for C4: a one-sample video whose token is aborted at the
first check settles rejected with no bytes. -/
theorem renderVideo_abort_rejects_witness :
    demoVideo1.track = some demoTrack ∧
    (∃ k, k < demoVideo1.samples.length ∧ ((fun _ => true) : ℕ → Bool) k = true) ∧
    (renderVideo demoVideo1 (1080, 1920) [] fun _ => true).result =
      RenderResult.rejected ∧
    (renderVideo demoVideo1 (1080, 1920) [] fun _ => true).result.bytes = none ∧
    RenderResult.rejected ≠ RenderResult.noOutput :=
  ⟨rfl, ⟨0, by decide, rfl⟩,
    (renderVideo_abort_rejects demoVideo1 (1080, 1920) [] (fun _ => true)
      demoTrack rfl ⟨0, by decide, rfl⟩).1,
    (renderVideo_abort_rejects demoVideo1 (1080, 1920) [] (fun _ => true)
      demoTrack rfl ⟨0, by decide, rfl⟩).2.1,
    (renderVideo_abort_rejects demoVideo1 (1080, 1920) [] (fun _ => true)
      demoTrack rfl ⟨0, by decide, rfl⟩).2.2.1⟩

/-- C5: for an N-sample transcode that is never cancelled, with strictly
increasing sample timestamps that are nonnegative and do not exceed the
computed duration, the progress callback fires exactly N + 1 times, its
values are non-decreasing and lie in [0, 1], and the final value is
exactly 1. -/
theorem renderVideo_progress_profile (input : InputVideo) (size : MediaSize)
    (filters : FilterEntries) (tok : ℕ → Bool) (t : VideoTrack)
    (htrack : input.track = some t)
    (hdur : 0 < input.duration)
    (hmono : input.samples.Chain' fun a b => a.timestamp < b.timestamp)
    (hbounds : ∀ s ∈ input.samples,
      0 ≤ s.timestamp ∧ s.timestamp ≤ input.duration)
    (htok : ∀ i, tok i = false) :
    (progressValues (renderVideo input size filters tok).trace).length =
      input.samples.length + 1 ∧
    List.Chain' (· ≤ ·)
      (progressValues (renderVideo input size filters tok).trace) ∧
    (∀ p ∈ progressValues (renderVideo input size filters tok).trace,
      0 ≤ p ∧ p ≤ 1) ∧
    (progressValues (renderVideo input size filters tok).trace).getLast? =
      some 1 := by
  obtain ⟨hcomp, hvals⟩ :=
    transcodeLoop_no_abort tok input.duration htok input.samples 0
  have htr : (renderVideo input size filters tok).trace =
      (transcodeLoop tok input.duration input.samples 0).1 ++
        [RenderEvent.sourceClose, RenderEvent.finalize,
          RenderEvent.progress 1] := by
    simp [renderVideo, htrack, hcomp]
  have hpv : progressValues (renderVideo input size filters tok).trace =
      (input.samples.map fun s => s.timestamp / input.duration) ++ [1] := by
    rw [htr, progressValues, List.filterMap_append]
    rw [progressValues] at hvals
    rw [hvals]
    rfl
  rw [hpv]
  refine ⟨by simp, ?_, ?_, List.getLast?_concat _⟩
  · rw [List.chain'_append]
    refine ⟨?_, List.chain'_singleton 1, ?_⟩
    · rw [List.chain'_map]
      exact hmono.imp fun a b hab => (div_le_div_right hdur).mpr hab.le
    · intro x hx y hy
      simp only [List.head?_cons, Option.mem_def, Option.some.injEq] at hy
      subst hy
      have hxmem : x ∈ input.samples.map
          fun s => s.timestamp / input.duration := by
        obtain ⟨hne, hxe⟩ := List.mem_getLast?_eq_getLast hx
        rw [hxe]
        exact List.getLast_mem hne
      obtain ⟨s, hs, rfl⟩ := List.mem_map.mp hxmem
      exact (div_le_one hdur).mpr (hbounds s hs).2
  · intro p hp
    rcases List.mem_append.mp hp with hp | hp
    · obtain ⟨s, hs, rfl⟩ := List.mem_map.mp hp
      exact ⟨div_nonneg (hbounds s hs).1 hdur.le,
        (div_le_one hdur).mpr (hbounds s hs).2⟩
    · have hp1 : p = 1 := by simpa using hp
      subst hp1
      norm_num

/-- Witness for C5: a never-cancelled two-sample transcode reports the
progress sequence [0, 1/2, 1]. -/
theorem renderVideo_progress_profile_witness :
    demoVideo2.track = some demoTrack ∧
    (0 : ℚ) < demoVideo2.duration ∧
    demoVideo2.samples.Chain' (fun a b => a.timestamp < b.timestamp) ∧
    (∀ s ∈ demoVideo2.samples,
      0 ≤ s.timestamp ∧ s.timestamp ≤ demoVideo2.duration) ∧
    (progressValues
        (renderVideo demoVideo2 (1080, 1920) [] fun _ => false).trace).length =
      demoVideo2.samples.length + 1 ∧
    List.Chain' (· ≤ ·)
      (progressValues
        (renderVideo demoVideo2 (1080, 1920) [] fun _ => false).trace) ∧
    (progressValues
        (renderVideo demoVideo2 (1080, 1920) [] fun _ => false).trace).getLast? =
      some 1 :=
  ⟨rfl, by norm_num [demoVideo2],
    by norm_num [demoVideo2, List.chain'_cons],
    by
      intro s hs
      have hs' : s = ({ timestamp := 0, duration := 1 } : Sample) ∨
          s = ({ timestamp := 1, duration := 1 } : Sample) := by
        simpa [demoVideo2] using hs
      rcases hs' with rfl | rfl <;> norm_num [demoVideo2],
    (renderVideo_progress_profile demoVideo2 (1080, 1920) [] (fun _ => false)
      demoTrack rfl (by norm_num [demoVideo2])
      (by norm_num [demoVideo2, List.chain'_cons])
      (by
        intro s hs
        have hs' : s = ({ timestamp := 0, duration := 1 } : Sample) ∨
            s = ({ timestamp := 1, duration := 1 } : Sample) := by
          simpa [demoVideo2] using hs
        rcases hs' with rfl | rfl <;> norm_num [demoVideo2])
      fun _ => rfl).1,
    (renderVideo_progress_profile demoVideo2 (1080, 1920) [] (fun _ => false)
      demoTrack rfl (by norm_num [demoVideo2])
      (by norm_num [demoVideo2, List.chain'_cons])
      (by
        intro s hs
        have hs' : s = ({ timestamp := 0, duration := 1 } : Sample) ∨
            s = ({ timestamp := 1, duration := 1 } : Sample) := by
          simpa [demoVideo2] using hs
        rcases hs' with rfl | rfl <;> norm_num [demoVideo2])
      fun _ => rfl).2.1,
    (renderVideo_progress_profile demoVideo2 (1080, 1920) [] (fun _ => false)
      demoTrack rfl (by norm_num [demoVideo2])
      (by norm_num [demoVideo2, List.chain'_cons])
      (by
        intro s hs
        have hs' : s = ({ timestamp := 0, duration := 1 } : Sample) ∨
            s = ({ timestamp := 1, duration := 1 } : Sample) := by
          simpa [demoVideo2] using hs
        rcases hs' with rfl | rfl <;> norm_num [demoVideo2])
      fun _ => rfl).2.2.2⟩

/-- C6: the encoder's acceptance of frame k is awaited before the loop
continues, so in the trace the completed handoff of frame k precedes any
drawing of sample k + 1 — decoding never runs ahead of encoding by more
than the frame in hand. -/
theorem renderVideo_backpressure (input : InputVideo) (size : MediaSize)
    (filters : FilterEntries) (tok : ℕ → Bool) (t : VideoTrack)
    (htrack : input.track = some t) :
    ∀ k, RenderEvent.draw (k + 1) ∈ (renderVideo input size filters tok).trace →
      ∃ ts dur l₁ l₂,
        (renderVideo input size filters tok).trace =
          l₁ ++ RenderEvent.encode k ts dur :: l₂ ∧
        RenderEvent.draw (k + 1) ∈ l₂ := by
  intro k hk
  cases hcomp : (transcodeLoop tok input.duration input.samples 0).2 with
  | false =>
    have htr : (renderVideo input size filters tok).trace =
        (transcodeLoop tok input.duration input.samples 0).1 := by
      simp [renderVideo, htrack, hcomp]
    rw [htr] at hk ⊢
    exact transcodeLoop_encode_before_draw tok input.duration input.samples 0 k
      (Nat.zero_le k) hk
  | true =>
    have htr : (renderVideo input size filters tok).trace =
        (transcodeLoop tok input.duration input.samples 0).1 ++
          [RenderEvent.sourceClose, RenderEvent.finalize,
            RenderEvent.progress 1] := by
      simp [renderVideo, htrack, hcomp]
    rw [htr] at hk ⊢
    have hk' : RenderEvent.draw (k + 1) ∈
        (transcodeLoop tok input.duration input.samples 0).1 := by
      rcases List.mem_append.mp hk with h | h
      · exact h
      · simp at h
    obtain ⟨ts, dur, l₁, l₂, heq, hmem⟩ :=
      transcodeLoop_encode_before_draw tok input.duration input.samples 0 k
        (Nat.zero_le k) hk'
    refine ⟨ts, dur, l₁,
      l₂ ++ [RenderEvent.sourceClose, RenderEvent.finalize,
        RenderEvent.progress 1], ?_, List.mem_append_left _ hmem⟩
    rw [heq]
    simp

/-- Witness for C6: in the two-sample run, the completed encode of frame
0 precedes the drawing of sample 1. -/
theorem renderVideo_backpressure_witness :
    demoVideo2.track = some demoTrack ∧
    RenderEvent.draw 1 ∈
      (renderVideo demoVideo2 (1080, 1920) [] fun _ => false).trace ∧
    (∃ ts dur l₁ l₂,
      (renderVideo demoVideo2 (1080, 1920) [] fun _ => false).trace =
        l₁ ++ RenderEvent.encode 0 ts dur :: l₂ ∧
      RenderEvent.draw 1 ∈ l₂) :=
  ⟨rfl, by decide,
    renderVideo_backpressure demoVideo2 (1080, 1920) [] (fun _ => false)
      demoTrack rfl 0 (by decide)⟩

/-- C7 (code bug): on the success path every pulled sample is closed, but
on the aborted path the loop exits via `return Promise.reject()` before
`sample.close()`, leaking the sample in hand: with a one-sample stream
and a token aborted at the first check, the trace records that iteration
0 began (its sample was pulled) yet contains no close of sample 0. -/
theorem renderVideo_abort_leaks_sample :
    RenderEvent.close 0 ∈
      (renderVideo demoVideo1 (1080, 1920) [] fun _ => false).trace ∧
    (renderVideo demoVideo1 (1080, 1920) [] fun _ => true).trace =
      [RenderEvent.check 0 true] ∧
    RenderEvent.close 0 ∉
      (renderVideo demoVideo1 (1080, 1920) [] fun _ => true).trace := by
  refine ⟨?_, ?_, ?_⟩ <;> decide

/-- C8: for a file whose declared media type is outside the supported
set, both dispatch functions perform no operation: `previewFile` starts
nothing under the fresh (never-aborted, hence never-started) token it
returns, and `renderFile` creates no surface, runs no loop, renders
nothing and saves nothing. -/
theorem dispatch_unsupported_noop (f : MediaFile) (size : MediaSize)
    (filters : FilterEntries) (tok : ℕ → Bool)
    (h : f.type ∉ supportedTypes) :
    (previewFile f.type).2 = none ∧
    (previewFile f.type).1.aborted = false ∧
    renderFile f size filters tok = Except.ok
      { canvas := none, trace := [], rendered := none, filename := none,
        saved := none } := by
  rw [supportedTypes] at h
  simp only [List.mem_cons, List.not_mem_nil, or_false] at h
  push_neg at h
  obtain ⟨e1, e2, e3, e4, e5, e6⟩ := h
  refine ⟨?_, rfl, ?_⟩
  · simp [previewFile, e1, e2, e3, e4, e5, e6]
  · simp [renderFile, e1, e2, e3, e4, e5, e6]

/-- Witness for C8: a `text/plain` file is dispatched as a no-op by both
`previewFile` and `renderFile`. -/
theorem dispatch_unsupported_noop_witness :
    demoTextFile.type ∉ supportedTypes ∧
    (previewFile demoTextFile.type).2 = none ∧
    (previewFile demoTextFile.type).1.aborted = false ∧
    renderFile demoTextFile (1080, 1920) [] (fun _ => false) = Except.ok
      { canvas := none, trace := [], rendered := none, filename := none,
        saved := none } :=
  ⟨by decide,
    (dispatch_unsupported_noop demoTextFile (1080, 1920) [] (fun _ => false)
      (by decide)).1,
    (dispatch_unsupported_noop demoTextFile (1080, 1920) [] (fun _ => false)
      (by decide)).2.1,
    (dispatch_unsupported_noop demoTextFile (1080, 1920) [] (fun _ => false)
      (by decide)).2.2⟩

/-- C9 (code bug): for MediaSize (1080, 1920) — height 1080, width
1920 — the still-image branch of `renderFile` creates its surface as
`OffscreenCanvas(size[0], size[1])`, i.e. with width 1080 (the height
component) instead of 1920, while the video branch correctly creates
`OffscreenCanvas(size[1], size[0])` with width 1920. -/
theorem renderFile_still_surface_swapped :
    (renderFile demoImageFile (1080, 1920) [] fun _ => false).map
        RenderFileOutcome.canvas =
      Except.ok (some { width := 1080, height := 1920 }) ∧
    (1080 : ℚ) ≠ 1920 ∧
    (renderVideo demoVideo1 (1080, 1920) [] fun _ => false).canvas =
      some { width := 1920, height := 1080 } := by
  refine ⟨by decide, by norm_num, by decide⟩

/-- Counterexample to C10: on an mp4 container without a video track,
`renderVideo` does return nothing, but `renderFile` wraps the absent
buffer in `new Blob([buffer ?? ''])` and still saves a zero-byte output
file — an output file is produced, unlike the unknown-media-type path. -/
theorem renderFile_no_track_saves_empty_file :
    (renderVideo demoNoTrackFile.video (1080, 1920) [] fun _ => false).result =
      RenderResult.noOutput ∧
    (renderFile demoNoTrackFile (1080, 1920) [] fun _ => false).map
        RenderFileOutcome.saved =
      Except.ok (some ("clip-1920x1080.mp4", Rendered.video [])) ∧
    (renderFile demoTextFile (1080, 1920) [] fun _ => false).map
        RenderFileOutcome.saved = Except.ok none := by
  refine ⟨rfl, by decide, by decide⟩

/-- C10 (amended): when the source container has no video track the
transcode returns nothing — neither an error nor a rejection, and no
bytes; however `renderFile` then wraps the absent buffer in an empty blob
and saves a zero-byte `.mp4` file, so an output file is produced (unlike
the unknown-media-type no-op path). -/
theorem renderVideo_no_track_empty_save (v : InputVideo) (size : MediaSize)
    (filters : FilterEntries) (tok : ℕ → Bool) (h : v.track = none) :
    (renderVideo v size filters tok).result = RenderResult.noOutput ∧
    (renderVideo v size filters tok).result ≠ RenderResult.rejected ∧
    (renderVideo v size filters tok).result.bytes = none ∧
    (renderVideo v size filters tok).trace = [] ∧
    ∀ f : MediaFile,
      (f.type = "video/mp4" ∨ f.type = "video/webm" ∨
        f.type = "video/quicktime") →
      f.video = v →
      (renderFile f size filters tok).map RenderFileOutcome.saved =
        Except.ok (some
          (replaceExtension f.name
            ("-" ++ toString size.2 ++ "x" ++ toString size.1 ++ ".mp4"),
          Rendered.video [])) := by
  have hres : (renderVideo v size filters tok).result =
      RenderResult.noOutput := by
    simp [renderVideo, h]
  refine ⟨hres, by rw [hres]; exact fun he => RenderResult.noConfusion he,
    by rw [hres]; rfl, by simp [renderVideo, h], ?_⟩
  intro f hft hfv
  have himg : ¬(f.type = "image/png" ∨ f.type = "image/jpeg" ∨
      f.type = "image/gif") := by
    rcases hft with hft | hft | hft <;> rw [hft] <;> decide
  rw [renderFile, if_neg himg, if_pos hft, hfv]
  simp [hres, Except.map]

/-- Witness for the amended C10: the trackless mp4 yields `noOutput`
from `renderVideo`, yet `renderFile` saves `clip-1920x1080.mp4` with
empty content. -/
theorem renderVideo_no_track_empty_save_witness :
    demoNoTrackFile.video.track = none ∧
    (renderVideo demoNoTrackFile.video (1080, 1920) [] fun _ => false).result =
      RenderResult.noOutput ∧
    (renderVideo demoNoTrackFile.video (1080, 1920) [] fun _ => false).result ≠
      RenderResult.rejected ∧
    (renderVideo demoNoTrackFile.video (1080, 1920) [] fun _ => false).result.bytes =
      none ∧
    (renderVideo demoNoTrackFile.video (1080, 1920) [] fun _ => false).trace = [] ∧
    (renderFile demoNoTrackFile (1080, 1920) [] fun _ => false).map
        RenderFileOutcome.saved =
      Except.ok (some
        (replaceExtension demoNoTrackFile.name ("-" ++ toString (1920 : ℕ) ++
          "x" ++ toString (1080 : ℕ) ++ ".mp4"),
        Rendered.video [])) :=
  ⟨rfl,
    (renderVideo_no_track_empty_save demoNoTrackFile.video (1080, 1920) []
      (fun _ => false) rfl).1,
    (renderVideo_no_track_empty_save demoNoTrackFile.video (1080, 1920) []
      (fun _ => false) rfl).2.1,
    (renderVideo_no_track_empty_save demoNoTrackFile.video (1080, 1920) []
      (fun _ => false) rfl).2.2.1,
    (renderVideo_no_track_empty_save demoNoTrackFile.video (1080, 1920) []
      (fun _ => false) rfl).2.2.2.1,
    (renderVideo_no_track_empty_save demoNoTrackFile.video (1080, 1920) []
      (fun _ => false) rfl).2.2.2.2 demoNoTrackFile (Or.inl rfl) rfl⟩

end Posting
